import Mathlib

/-!
Shallow embedding of the latte-lammps-functions repository.

The repository has two source files:
* `example/example.py` defines the Porezag carbon tight-binding
  parameterization: `PorezagSKF` (Hamiltonian/overlap matrix elements at a
  distance) and `PorezagPair` (pairwise repulsive energy and force).
* `latte_functions.py` defines the table writers `makeSKF` and
  `makeLAMMPSPairwiseTable`, the table reader inside `plotSKF`, and
  coordinate utilities such as `translateCoordinates`.

Numbers are modelled by exact rationals; the Python code uses IEEE doubles,
but every claim under study is about the algebraic content of the code, so
the exact-arithmetic embedding is the faithful idealization.  File writes
are modelled by the list of lines the code assembles before writing.
-/

namespace LatteLammps

/-- Chebyshev polynomial of the first kind, by the textbook recurrence
used by numpy chebval semantics: T 0 = 1, T 1 = y, T (n+2) = 2 y T (n+1) - T n. -/
def chebT (R : Type) [CommRing R] : ℕ → R → R
  | 0, _ => 1
  | 1, y => y
  | n + 2, y => 2 * y * chebT R (n + 1) y - chebT R n y

/-- Chebyshev polynomial of the second kind:
U 0 = 1, U 1 = 2 y, U (n+2) = 2 y U (n+1) - U n. -/
def chebU (R : Type) [CommRing R] : ℕ → R → R
  | 0, _ => 1
  | 1, y => 2 * y
  | n + 2, y => 2 * y * chebU R (n + 1) y - chebU R n y

/-- Semantics of scipy eval_chebyu at an integer index: the second-kind
Chebyshev polynomial, with U at index -1 equal to 0 (the only negative
index reached by the code). -/
def chebUInt (R : Type) [CommRing R] (n : ℤ) (y : R) : R :=
  if 0 ≤ n then chebU R n.toNat y else 0

/-- Semantics of numpy polynomial chebval: the truncated Chebyshev series
with the given coefficient list evaluated at y. -/
def chebval {R : Type} [CommRing R] (c : List R) (y : R) : R :=
  ∑ k in Finset.range c.length, c.getD k 0 * chebT R k y

/-- Coefficients HC_sssigma of PorezagSKF (example.py). -/
def HC_sssigma : List ℚ :=
  [-0.4663805, 0.3528951, -0.1402985, 0.0050519,
    0.0269723, -0.0158810, 0.0036716, 0.0010301,
    -0.0015546, 0.0008601]

/-- Coefficients HC_spsigma of PorezagSKF (example.py). -/
def HC_spsigma : List ℚ :=
  [0.3395418, -0.2250358, 0.0298224, 0.0653476,
    -0.0605786, 0.0298962, -0.0099609, 0.0020609,
    0.0001264, -0.0003381]

/-- Coefficients HC_ppsigma of PorezagSKF (example.py). -/
def HC_ppsigma : List ℚ :=
  [0.2422701, -0.1315258, -0.0372696, 0.0942352,
    -0.0673216, 0.0316900, -0.0117293, 0.0033519,
    -0.0004838, -0.0000906]

/-- Coefficients HC_pppi of PorezagSKF (example.py). -/
def HC_pppi : List ℚ :=
  [-0.3793837, 0.3204470, -0.1956799, 0.0883986,
    -0.0300733, 0.0074465, -0.0008563, -0.0004453,
    0.0003842, -0.0001855]

/-- Coefficients SC_sssigma of PorezagSKF (example.py). -/
def SC_sssigma : List ℚ :=
  [0.4728644, -0.3661623, 0.1594782, -0.0204934,
    -0.0170732, 0.0096695, -0.0007135, -0.0013826,
    0.0007849, -0.0002005]

/-- Coefficients SC_spsigma of PorezagSKF (example.py). -/
def SC_spsigma : List ℚ :=
  [-0.3662838, 0.2490285, -0.0431248, -0.0584391,
    0.0492775, -0.0150447, -0.0010758, 0.0027734,
    -0.0011214, 0.0002303]

/-- Coefficients SC_ppsigma of PorezagSKF (example.py; the ppsigma and pppi
overlap tables are deliberately swapped relative to the mislabeled table of
the published paper). -/
def SC_ppsigma : List ℚ :=
  [-0.1359608, 0.0226235, 0.1406440, -0.1573794,
    0.0753818, -0.0108677, -0.0075444, 0.0051533,
    -0.0013747, 0.0000751]

/-- Coefficients SC_pppi of PorezagSKF (example.py). -/
def SC_pppi : List ℚ :=
  [0.3715732, -0.3070867, 0.1707304, -0.0581555,
    0.0061645, 0.0051460, -0.0032776, 0.0009119,
    -0.0001265, -0.000227]

/-- Record of the 20 Hamiltonian and overlap matrix elements returned by an
element function (the elementDict of example.py). -/
structure ElementDict where
  Hss0 : ℚ
  Hsp0 : ℚ
  Hsd0 : ℚ
  Hpp0 : ℚ
  Hpp1 : ℚ
  Hpd0 : ℚ
  Hpd1 : ℚ
  Hdd0 : ℚ
  Hdd1 : ℚ
  Hdd2 : ℚ
  Sss0 : ℚ
  Ssp0 : ℚ
  Ssd0 : ℚ
  Spp0 : ℚ
  Spp1 : ℚ
  Spd0 : ℚ
  Spd1 : ℚ
  Sdd0 : ℚ
  Sdd1 : ℚ
  Sdd2 : ℚ
  deriving DecidableEq, Repr

/-- Element record with every slot zero: the initialization of PorezagSKF,
returned unchanged outside the domain. -/
def zeroElementDict : ElementDict :=
  { Hss0 := 0, Hsp0 := 0, Hsd0 := 0, Hpp0 := 0, Hpp1 := 0
    Hpd0 := 0, Hpd1 := 0, Hdd0 := 0, Hdd1 := 0, Hdd2 := 0
    Sss0 := 0, Ssp0 := 0, Ssd0 := 0, Spp0 := 0, Spp1 := 0
    Spd0 := 0, Spd1 := 0, Sdd0 := 0, Sdd1 := 0, Sdd2 := 0 }

/-- PorezagSKF of example.py: Hamiltonian and overlap matrix elements of the
Porezag carbon parameterization at distance r.  The eight s/p quantities are
Chebyshev series evaluated on [1, 7] (closed interval) minus half the zeroth
coefficient; everything is zero outside the domain, and all d-orbital slots
are always zero. -/
def PorezagSKF (r : ℚ) : ElementDict :=
  if 1 ≤ r ∧ r ≤ 7 then
    let y : ℚ := (2 * r - 7 - 1) / (7 - 1)
    { Hss0 := chebval HC_sssigma y - HC_sssigma.getD 0 0 / 2
      Hsp0 := chebval HC_spsigma y - HC_spsigma.getD 0 0 / 2
      Hsd0 := 0
      Hpp0 := chebval HC_ppsigma y - HC_ppsigma.getD 0 0 / 2
      Hpp1 := chebval HC_pppi y - HC_pppi.getD 0 0 / 2
      Hpd0 := 0
      Hpd1 := 0
      Hdd0 := 0
      Hdd1 := 0
      Hdd2 := 0
      Sss0 := chebval SC_sssigma y - SC_sssigma.getD 0 0 / 2
      Ssp0 := chebval SC_spsigma y - SC_spsigma.getD 0 0 / 2
      Ssd0 := 0
      Spp0 := chebval SC_ppsigma y - SC_ppsigma.getD 0 0 / 2
      Spp1 := chebval SC_pppi y - SC_pppi.getD 0 0 / 2
      Spd0 := 0
      Spd1 := 0
      Sdd0 := 0
      Sdd1 := 0
      Sdd2 := 0 }
  else zeroElementDict

/-- Coefficients VC_rep of PorezagPair (example.py). -/
def VC_rep : List ℚ :=
  [2.2681036, -1.9157174, 1.1677745, -0.5171036,
    0.1529242, -0.0219294, -0.0000002, -0.0000001,
    -0.0000005, 0.0000009]

/-- PorezagPair of example.py: pairwise repulsive (energy, force) of the
Porezag carbon parameterization at distance r.  Inside [1, 4.1] the energy is
the Chebyshev series minus half the zeroth coefficient and the force is the
loop over m = 1..10 of -VC_rep[m-1]*(m-1)*U_(m-2)(y)*dy/dr; outside the
domain both are zero. -/
def PorezagPair (r : ℚ) : ℚ × ℚ :=
  if 1 ≤ r ∧ r ≤ 4.1 then
    let y : ℚ := (2 * r - 4.1 - 1) / (4.1 - 1)
    let energy : ℚ := chebval VC_rep y - VC_rep.getD 0 0 / 2
    let dy_by_dr : ℚ := 2 / (4.1 - 1)
    let force : ℚ :=
      ∑ m in Finset.Icc 1 10,
        -(VC_rep.getD (m - 1) 0) * ((m : ℚ) - 1) * chebUInt ℚ ((m : ℤ) - 2) y * dy_by_dr
    (energy, force)
  else (0, 0)

/-- Configuration bundle handed to the table writers (the
parameterizationDictionary of latte_functions.py). -/
structure ParameterizationDictionary where
  mass : ℚ
  gridDist : ℚ
  nGridPoints : ℕ
  type : String
  elementFunction : ℚ → ElementDict
  domainTB : ℚ × ℚ
  EVec : List ℚ
  SPE : ℚ
  UVec : List ℚ
  fVec : List ℚ
  cVec : List ℚ
  pairFunction : ℚ → ℚ × ℚ
  domainPair : ℚ × ℚ
  pairKeyword : String
  pairDescription : String
  contributor : String

/-- One whitespace-separated token of a written SKF line: either a number or
a literal string token (the Spline marker is the only string the writer
emits). -/
inductive SKFEntry where
  | num (q : ℚ)
  | str (s : String)
  deriving DecidableEq, Repr

/-- Values of one integral-table row of makeSKF: all 1.0 for r below the
tight-binding domain minimum, otherwise the 20 element values in the fixed
column order of the source. -/
def skfRowVals (pD : ParameterizationDictionary) (r : ℚ) : List ℚ :=
  if r < pD.domainTB.1 then List.replicate 20 1
  else
    let eD := pD.elementFunction r
    [eD.Hdd0, eD.Hdd1, eD.Hdd2, eD.Hpd0, eD.Hpd1,
     eD.Hpp0, eD.Hpp1, eD.Hsd0, eD.Hsp0, eD.Hss0,
     eD.Sdd0, eD.Sdd1, eD.Sdd2, eD.Spd0, eD.Spd1,
     eD.Spp0, eD.Spp1, eD.Ssd0, eD.Ssp0, eD.Sss0]

/-- Lines assembled by makeSKF of latte_functions.py (the lineListList that
the function joins with spaces and writes to disk).  An unrecognized type
yields no header line 2/3 but the rest of the file is still assembled. -/
def makeSKFLines (pD : ParameterizationDictionary) : List (List SKFEntry) :=
  let dVec : List ℚ := List.replicate 10 0
  let line1 : List SKFEntry := [.num pD.gridDist, .num pD.nGridPoints]
  let headerLines : List (List SKFEntry) :=
    if pD.type = "homonuclear" then
      [(pD.EVec ++ [pD.SPE] ++ pD.UVec ++ pD.fVec).map SKFEntry.num,
       (([pD.mass] ++ pD.cVec ++ [pD.domainTB.2] ++ dVec).map SKFEntry.num)]
    else if pD.type = "heteronuclear" then
      [(([12345] ++ pD.cVec ++ [pD.domainTB.2] ++ dVec).map SKFEntry.num)]
    else []
  let table : List (List SKFEntry) :=
    (List.range pD.nGridPoints).map
      (fun i : ℕ => (skfRowVals pD (pD.gridDist * (i : ℚ))).map SKFEntry.num)
  [line1] ++ headerLines ++ table ++
    [[SKFEntry.str "Spline"],
     ([1, pD.domainTB.2].map SKFEntry.num),
     ([0, 0, -1].map SKFEntry.num),
     (([pD.domainTB.1, pD.domainTB.2] ++ [0, 0, 0, 0, 0, 0]).map SKFEntry.num)]

/-- Whether makeSKF prints its configuration-error diagnostic: exactly when
the type field is neither homonuclear nor heteronuclear. -/
def makeSKFErrorReported (pD : ParameterizationDictionary) : Bool :=
  if pD.type = "homonuclear" then false
  else if pD.type = "heteronuclear" then false
  else true

/-- Whether a token is the Spline marker (plotSKF tests membership of the
string Spline in the split line). -/
def entryIsSpline : SKFEntry → Bool
  | .str s => s = "Spline"
  | .num _ => false

/-- Whether a token contains the at-sign extended-format marker that plotSKF
looks for on the first line. -/
def entryHasAt : SKFEntry → Bool
  | .str s => s.contains '@'
  | .num _ => false

/-- Numeric value of a token, as plotSKF converts table entries with float. -/
def entryVal : SKFEntry → ℚ
  | .num q => q
  | .str _ => 0

/-- Integral-table line length detected by plotSKF: 40 when the first line
carries the at-sign extended-format marker, else 20. -/
def skfDetectedLineLength (lines : List (List SKFEntry)) : ℕ :=
  if (lines.headD []).any entryHasAt then 40 else 20

/-- Index of the first integral-table line as computed by plotSKF: the first
line whose token count equals the expected length, plus one in the simple
(20-column) format because there the line before the table also has 20
entries. -/
def skfFirstTableLineIndex (lines : List (List SKFEntry)) (len : ℕ) : ℕ :=
  lines.findIdx (fun l => l.length == len) + (if len == 20 then 1 else 0)

/-- Index of the line after the integral table as computed by plotSKF: the
last line containing the Spline marker (0 when there is none, matching the
Python slice with a False bound). -/
def skfAfterTableLineIndex (lines : List (List SKFEntry)) : ℕ :=
  lines.length - 1 - lines.reverse.findIdx (fun l => l.any entryIsSpline)

/-- Integral table recovered by plotSKF: the slice between the computed
bounds, each token converted to its numeric value. -/
def skfIntegralTable (lines : List (List SKFEntry)) (len : ℕ) : List (List ℚ) :=
  let firstLineIndex := skfFirstTableLineIndex lines len
  let afterLineIndex := skfAfterTableLineIndex lines
  ((lines.drop firstLineIndex).take (afterLineIndex - firstLineIndex)).map
    (fun l => l.map entryVal)

/-- Hamiltonian half of the parsed integral table: the first half of the
columns. -/
def skfHTable (lines : List (List SKFEntry)) (len : ℕ) : List (List ℚ) :=
  (skfIntegralTable lines len).map (fun row => row.take (len / 2))

/-- Overlap half of the parsed integral table: the second half of the
columns. -/
def skfSTable (lines : List (List SKFEntry)) (len : ℕ) : List (List ℚ) :=
  (skfIntegralTable lines len).map (fun row => row.drop (len / 2))

/-- One input cell of the repeat-count notation handled by plotSKF: either a
plain numeric cell or a cell of the form count*value. -/
inductive SKFCell where
  | plain (v : ℚ)
  | starred (count : ℕ) (v : ℚ)
  deriving DecidableEq, Repr

/-- Whether a cell contains an asterisk. -/
def cellHasStar : SKFCell → Bool
  | .plain _ => false
  | .starred _ _ => true

/-- Numeric expansion of one cell: a plain cell is itself, a starred cell is
its value repeated count times. -/
def expandCell : SKFCell → List ℚ
  | .plain v => [v]
  | .starred count v => List.replicate count v

/-- Asterisk pre-parse pass of plotSKF on one line: a line containing an
asterisk has every starred cell replaced in place by its repeated values and
is re-split into flat tokens; a line without an asterisk is kept verbatim. -/
def expandLine (l : List SKFCell) : List SKFCell :=
  if l.any cellHasStar then l.flatMap (fun c => (expandCell c).map SKFCell.plain)
  else l

/-- Conversion constant of makeLAMMPSPairwiseTable. -/
def ang_per_bohr : ℚ := 0.529177

/-- Conversion constant of makeLAMMPSPairwiseTable. -/
def eV_per_hart : ℚ := 27.2114

/-- Point i of numpy linspace over [a, b] with n points: a + i*(b-a)/(n-1);
for n = 1 the rational division by zero yields a, matching numpy. -/
def linspacePoint (a b : ℚ) (n i : ℕ) : ℚ :=
  a + (i : ℚ) * ((b - a) / ((n : ℚ) - 1))

/-- One line of the LAMMPS pairwise table file, by content. -/
inductive LammpsLine where
  | provenance (date contributor : String)
  | description (d : String)
  | blank
  | keyword (k : String)
  | npoints (n : ℕ)
  | data (idx : ℕ) (r energy force : ℚ)
  deriving DecidableEq, Repr

/-- Lines written by makeLAMMPSPairwiseTable of latte_functions.py.  The
date produced by datetime.today in the source is passed in as a value. -/
def makeLAMMPSPairwiseTable (today : String) (pD : ParameterizationDictionary) :
    List LammpsLine :=
  [LammpsLine.provenance today pD.contributor,
   LammpsLine.description pD.pairDescription,
   LammpsLine.blank,
   LammpsLine.keyword pD.pairKeyword,
   LammpsLine.npoints pD.nGridPoints,
   LammpsLine.blank] ++
  (List.range pD.nGridPoints).map (fun i =>
    let r := linspacePoint pD.domainPair.1 pD.domainPair.2 pD.nGridPoints i
    let ef := pD.pairFunction r
    LammpsLine.data (i + 1) (r * ang_per_bohr) (ef.1 * eV_per_hart)
      (ef.2 * (eV_per_hart / ang_per_bohr)))

/-- One group of a simulation dictionary: its atomic data array (one row of
8 rationals per atom) and its per-group metadata. -/
structure GroupDict where
  qArray : List (List ℚ)
  atomTypeList : List String
  massList : List ℚ
  deriving DecidableEq

/-- Simulation dictionary: groups plus the remaining top-level fields. -/
structure SimulationDictionary where
  groupDictionaries : List GroupDict
  boxVectors : List (List ℚ)
  nAtoms : ℕ
  atomTypeList : List String
  massList : List ℚ
  nAtomTypes : ℕ
  deriving DecidableEq

/-- Row update of translateCoordinates: columns 4 to 7 are shifted by the
displacement vector, all other columns kept. -/
def shiftRow (displacementVector : List ℚ) (row : List ℚ) : List ℚ :=
  row.take 4 ++ List.zipWith (· + ·) ((row.drop 4).take 4) displacementVector ++ row.drop 8

/-- Group update of translateCoordinates for a selected group: every row of
its qArray is shifted, other fields kept. -/
def translateGroup (displacementVector : List ℚ) (group : GroupDict) : GroupDict :=
  { group with qArray := group.qArray.map (shiftRow displacementVector) }

/-- Effective group-selection list: the given list when it is a non-empty
(Python-truthy) value, else one True per group. -/
def effectiveGroupControl (sd : SimulationDictionary) (gc : Option (List Bool)) :
    List Bool :=
  match gc with
  | none => List.replicate sd.groupDictionaries.length true
  | some l =>
      if l.isEmpty then List.replicate sd.groupDictionaries.length true else l

/-- Loop of translateCoordinates over groups: each group whose control flag
is set is translated, the others are kept as they are. -/
def applyGroupControl (displacementVector : List ℚ) :
    List Bool → List GroupDict → List GroupDict
  | _, [] => []
  | [], g :: gs => g :: gs
  | b :: bs, g :: gs =>
      (if b then translateGroup displacementVector g else g) ::
        applyGroupControl displacementVector bs gs

/-- translateCoordinates of latte_functions.py: a deep copy of the input in
which the qArray coordinate columns of every selected group are shifted by
the displacement vector; the pure model returns the new dictionary and the
argument is untouched by construction. -/
def translateCoordinates (sd : SimulationDictionary) (displacementVector : List ℚ)
    (groupControl : Option (List Bool)) : SimulationDictionary :=
  let control := effectiveGroupControl sd groupControl
  { sd with groupDictionaries :=
      applyGroupControl displacementVector control sd.groupDictionaries }

/-- Carbon-carbon parameterization dictionary of the example script
(example.py main block). -/
def PorezagDictionary : ParameterizationDictionary :=
  { mass := 12.01
    gridDist := 0.02
    nGridPoints := 500
    type := "homonuclear"
    elementFunction := PorezagSKF
    domainTB := (1, 7)
    EVec := [0, -0.19435511, -0.50489172]
    SPE := -0.04547908
    UVec := [0.3647, 0.3647, 0.3647]
    fVec := [0, 2, 2]
    cVec := [0, 0, 0, 0, 0, 0, 0, 0]
    pairFunction := PorezagPair
    domainPair := (1.0, 4.1)
    pairKeyword := "POREZAG_C"
    pairDescription := "pairwise repulsive potential of Porezag C-C tight binding parameterization"
    contributor := "G. H. Brown" }

/-- Dictionary with an unrecognized type field, small enough to evaluate the
writer on it explicitly. -/
def badTypeDictionary : ParameterizationDictionary :=
  { mass := 1
    gridDist := 1
    nGridPoints := 2
    type := "unknown"
    elementFunction := fun _ => zeroElementDict
    domainTB := (3, 5)
    EVec := [0, 0, 0]
    SPE := 0
    UVec := [0, 0, 0]
    fVec := [0, 0, 0]
    cVec := [0, 0, 0, 0, 0, 0, 0, 0]
    pairFunction := fun _ => (0, 0)
    domainPair := (1, 2)
    pairKeyword := "X"
    pairDescription := "x"
    contributor := "x" }

/-- Simple-format token file whose last header line has 20 entries (as the
homonuclear and heteronuclear headers written by makeSKF do) followed by a
single 20-entry table row and the Spline marker. -/
def headerClashLines : List (List SKFEntry) :=
  [[SKFEntry.num 0.02, SKFEntry.num 500],
   List.replicate 20 (SKFEntry.num 5),
   List.replicate 20 (SKFEntry.num 7),
   [SKFEntry.str "Spline"]]

/-- Small simulation dictionary with two one-atom groups. -/
def exampleSimDict : SimulationDictionary :=
  { groupDictionaries :=
      [{ qArray := [[1, 1, 0, 6, 10, 20, 30, 40]]
         atomTypeList := ["C"], massList := [12.01] },
       { qArray := [[2, 1, 0, 6, 50, 60, 70, 80]]
         atomTypeList := ["H"], massList := [1.008] }]
    boxVectors := [[10, 0, 0], [0, 10, 0], [0, 0, 10]]
    nAtoms := 2
    atomTypeList := ["C", "H"]
    massList := [12.01, 1.008]
    nAtomTypes := 2 }

/-!
Theorems.  Each claim of the specification gets one theorem below; shared
helper lemmas come first.
-/

/-- C1: for every distance r in the closed interval [1, 7] each of the eight
parameterized quantities of PorezagSKF equals the Chebyshev series at the
mapped point y = (2r-7-1)/(7-1) minus half the zeroth coefficient, with the
endpoints r = 1 and r = 7 treated like interior points, and for every
distance whatsoever the twelve d-orbital slots of the returned record are
zero. -/
theorem porezagSKF_series_and_d_slots (r : ℚ) (h1 : 1 ≤ r) (h2 : r ≤ 7) :
    ((PorezagSKF r).Hss0 = chebval HC_sssigma ((2 * r - 7 - 1) / (7 - 1)) - HC_sssigma.getD 0 0 / 2 ∧
     (PorezagSKF r).Hsp0 = chebval HC_spsigma ((2 * r - 7 - 1) / (7 - 1)) - HC_spsigma.getD 0 0 / 2 ∧
     (PorezagSKF r).Hpp0 = chebval HC_ppsigma ((2 * r - 7 - 1) / (7 - 1)) - HC_ppsigma.getD 0 0 / 2 ∧
     (PorezagSKF r).Hpp1 = chebval HC_pppi ((2 * r - 7 - 1) / (7 - 1)) - HC_pppi.getD 0 0 / 2 ∧
     (PorezagSKF r).Sss0 = chebval SC_sssigma ((2 * r - 7 - 1) / (7 - 1)) - SC_sssigma.getD 0 0 / 2 ∧
     (PorezagSKF r).Ssp0 = chebval SC_spsigma ((2 * r - 7 - 1) / (7 - 1)) - SC_spsigma.getD 0 0 / 2 ∧
     (PorezagSKF r).Spp0 = chebval SC_ppsigma ((2 * r - 7 - 1) / (7 - 1)) - SC_ppsigma.getD 0 0 / 2 ∧
     (PorezagSKF r).Spp1 = chebval SC_pppi ((2 * r - 7 - 1) / (7 - 1)) - SC_pppi.getD 0 0 / 2) ∧
    (∀ s : ℚ, (PorezagSKF s).Hsd0 = 0 ∧ (PorezagSKF s).Hpd0 = 0 ∧ (PorezagSKF s).Hpd1 = 0 ∧
      (PorezagSKF s).Hdd0 = 0 ∧ (PorezagSKF s).Hdd1 = 0 ∧ (PorezagSKF s).Hdd2 = 0 ∧
      (PorezagSKF s).Ssd0 = 0 ∧ (PorezagSKF s).Spd0 = 0 ∧ (PorezagSKF s).Spd1 = 0 ∧
      (PorezagSKF s).Sdd0 = 0 ∧ (PorezagSKF s).Sdd1 = 0 ∧ (PorezagSKF s).Sdd2 = 0) := by
  constructor
  · simp only [PorezagSKF]
    rw [if_pos ⟨h1, h2⟩]
    exact ⟨rfl, rfl, rfl, rfl, rfl, rfl, rfl, rfl⟩
  · intro s
    simp only [PorezagSKF]
    split
    · exact ⟨rfl, rfl, rfl, rfl, rfl, rfl, rfl, rfl, rfl, rfl, rfl, rfl⟩
    · exact ⟨rfl, rfl, rfl, rfl, rfl, rfl, rfl, rfl, rfl, rfl, rfl, rfl⟩

/-- Instantiation of the C1 theorem at the left endpoint r = 1. -/
theorem porezagSKF_series_and_d_slots_witness :
    (PorezagSKF 1).Hss0 =
      chebval HC_sssigma ((2 * 1 - 7 - 1) / (7 - 1)) - HC_sssigma.getD 0 0 / 2 :=
  (porezagSKF_series_and_d_slots 1 (by norm_num) (by norm_num)).1.1

/-- C3: outside [1, 7] the element evaluator returns the all-zero record
(all 20 slots zero), and outside [1, 4.1] the pair evaluator returns zero
energy and zero force; both evaluators are total, so no error is raised. -/
theorem porezag_outside_domain_zero (r s : ℚ) (hr : r < 1 ∨ 7 < r)
    (hs : s < 1 ∨ 4.1 < s) :
    PorezagSKF r = zeroElementDict ∧ PorezagPair s = (0, 0) := by
  constructor
  · simp only [PorezagSKF]
    rw [if_neg]
    rintro ⟨h1, h2⟩
    rcases hr with h | h
    · exact absurd h1 (not_le.mpr h)
    · exact absurd h2 (not_le.mpr h)
  · simp only [PorezagPair]
    rw [if_neg]
    rintro ⟨h1, h2⟩
    rcases hs with h | h
    · exact absurd h1 (not_le.mpr h)
    · exact absurd h2 (not_le.mpr h)

/-- Instantiation of the C3 theorem at r = 8 (beyond the element domain) and
s = 5 (beyond the pair domain). -/
theorem porezag_outside_domain_zero_witness :
    PorezagSKF 8 = zeroElementDict ∧ PorezagPair 5 = (0, 0) :=
  porezag_outside_domain_zero 8 5 (Or.inr (by norm_num)) (Or.inr (by norm_num))

/-- Helper: findIdx over an append whose first part has no hit. -/
theorem findIdx_append_of_forall_false {α : Type} (p : α → Bool) (l₁ l₂ : List α)
    (h : ∀ a ∈ l₁, p a = false) :
    (l₁ ++ l₂).findIdx p = l₁.length + l₂.findIdx p := by
  induction l₁ with
  | nil => simp
  | cons a l ih =>
      simp only [List.cons_append, List.findIdx_cons, h a (List.mem_cons_self a l),
        cond_false]
      rw [ih (fun b hb => h b (List.mem_cons_of_mem a hb))]
      simp [List.length_cons]
      omega

/-- Helper: lookup past three leading elements. -/
theorem getElem?_cons3 {α : Type} (a b c : α) (l : List α) (i : ℕ) :
    (a :: b :: c :: l)[3 + i]? = l[i]? := by
  rw [Nat.add_comm]
  simp [List.getElem?_cons_succ]

/-- Helper: lookup past two leading elements. -/
theorem getElem?_cons2 {α : Type} (a b : α) (l : List α) (i : ℕ) :
    (a :: b :: l)[2 + i]? = l[i]? := by
  rw [Nat.add_comm]
  simp [List.getElem?_cons_succ]

/-- Helper: lookup inside a mapped range prefix. -/
theorem getElem?_range_map_append {α : Type} (n i : ℕ) (f : ℕ → α) (l₂ : List α)
    (hi : i < n) :
    ((List.range n).map f ++ l₂)[i]? = some (f i) := by
  rw [List.getElem?_append, if_pos (by simpa using hi)]
  simp [List.getElem?_map, List.getElem?_range hi]

/-- Helper: lookup just past a mapped range prefix. -/
theorem getElem?_range_map_append_end {α : Type} (n : ℕ) (f : ℕ → α) (l₂ : List α) :
    ((List.range n).map f ++ l₂)[n]? = l₂[0]? := by
  rw [List.getElem?_append, if_neg (by simp)]
  simp

/-- C4: for a recognized type the SKF writer emits, directly after the header
block (3 lines homonuclear, 2 heteronuclear), exactly nGridPoints
integral-table rows; row i is taken at r = gridDist*i, is twenty 1.0 values
when r is below the tight-binding domain minimum and otherwise holds the 20
element values in the fixed column order of the source, and the line
immediately after the table consists solely of the Spline token. -/
theorem makeSKF_integral_table (pD : ParameterizationDictionary)
    (ht : pD.type = "homonuclear" ∨ pD.type = "heteronuclear") :
    (makeSKFLines pD).length =
      (if pD.type = "homonuclear" then 3 else 2) + pD.nGridPoints + 4 ∧
    (∀ i, i < pD.nGridPoints →
      (makeSKFLines pD)[(if pD.type = "homonuclear" then 3 else 2) + i]? =
        some ((if pD.gridDist * i < pD.domainTB.1 then List.replicate 20 (1 : ℚ)
               else
                 [(pD.elementFunction (pD.gridDist * i)).Hdd0,
                  (pD.elementFunction (pD.gridDist * i)).Hdd1,
                  (pD.elementFunction (pD.gridDist * i)).Hdd2,
                  (pD.elementFunction (pD.gridDist * i)).Hpd0,
                  (pD.elementFunction (pD.gridDist * i)).Hpd1,
                  (pD.elementFunction (pD.gridDist * i)).Hpp0,
                  (pD.elementFunction (pD.gridDist * i)).Hpp1,
                  (pD.elementFunction (pD.gridDist * i)).Hsd0,
                  (pD.elementFunction (pD.gridDist * i)).Hsp0,
                  (pD.elementFunction (pD.gridDist * i)).Hss0,
                  (pD.elementFunction (pD.gridDist * i)).Sdd0,
                  (pD.elementFunction (pD.gridDist * i)).Sdd1,
                  (pD.elementFunction (pD.gridDist * i)).Sdd2,
                  (pD.elementFunction (pD.gridDist * i)).Spd0,
                  (pD.elementFunction (pD.gridDist * i)).Spd1,
                  (pD.elementFunction (pD.gridDist * i)).Spp0,
                  (pD.elementFunction (pD.gridDist * i)).Spp1,
                  (pD.elementFunction (pD.gridDist * i)).Ssd0,
                  (pD.elementFunction (pD.gridDist * i)).Ssp0,
                  (pD.elementFunction (pD.gridDist * i)).Sss0]).map SKFEntry.num)) ∧
    (makeSKFLines pD)[(if pD.type = "homonuclear" then 3 else 2) + pD.nGridPoints]? =
      some [SKFEntry.str "Spline"] := by
  rcases ht with h | h
  · have hshape : makeSKFLines pD =
        [SKFEntry.num pD.gridDist, SKFEntry.num pD.nGridPoints] ::
        ((pD.EVec ++ [pD.SPE] ++ pD.UVec ++ pD.fVec).map SKFEntry.num) ::
        (([pD.mass] ++ pD.cVec ++ [pD.domainTB.2] ++ List.replicate 10 0).map SKFEntry.num) ::
        ((List.range pD.nGridPoints).map
            (fun i : ℕ => (skfRowVals pD (pD.gridDist * (i : ℚ))).map SKFEntry.num) ++
          [[SKFEntry.str "Spline"],
           [1, pD.domainTB.2].map SKFEntry.num,
           [0, 0, -1].map SKFEntry.num,
           ([pD.domainTB.1, pD.domainTB.2] ++ [0, 0, 0, 0, 0, 0]).map SKFEntry.num]) := by
      simp [makeSKFLines, h]
    rw [h]
    simp only [String.reduceEq, reduceIte]
    refine ⟨?_, ?_, ?_⟩
    · rw [hshape]
      simp [List.length_append, List.length_map, List.length_range]
      omega
    · intro i hi
      rw [hshape, getElem?_cons3, getElem?_range_map_append _ _ _ _ hi]
      rfl
    · rw [hshape, getElem?_cons3, getElem?_range_map_append_end]
      rfl
  · have hshape : makeSKFLines pD =
        [SKFEntry.num pD.gridDist, SKFEntry.num pD.nGridPoints] ::
        (([12345] ++ pD.cVec ++ [pD.domainTB.2] ++ List.replicate 10 0).map SKFEntry.num) ::
        ((List.range pD.nGridPoints).map
            (fun i : ℕ => (skfRowVals pD (pD.gridDist * (i : ℚ))).map SKFEntry.num) ++
          [[SKFEntry.str "Spline"],
           [1, pD.domainTB.2].map SKFEntry.num,
           [0, 0, -1].map SKFEntry.num,
           ([pD.domainTB.1, pD.domainTB.2] ++ [0, 0, 0, 0, 0, 0]).map SKFEntry.num]) := by
      simp [makeSKFLines, h]
    rw [h]
    simp only [String.reduceEq, reduceIte]
    refine ⟨?_, ?_, ?_⟩
    · rw [hshape]
      simp [List.length_append, List.length_map, List.length_range]
      omega
    · intro i hi
      rw [hshape, getElem?_cons2, getElem?_range_map_append _ _ _ _ hi]
      rfl
    · rw [hshape, getElem?_cons2, getElem?_range_map_append_end]
      rfl

/-- Instantiation of the C4 theorem on the Porezag dictionary: its SKF file
has the header, 500 table rows and the 4 spline-stub lines. -/
theorem makeSKF_integral_table_witness :
    (makeSKFLines PorezagDictionary).length =
      (if PorezagDictionary.type = "homonuclear" then 3 else 2) +
        PorezagDictionary.nGridPoints + 4 :=
  (makeSKF_integral_table PorezagDictionary (Or.inl rfl)).1

/-- C6 counterexample: on a dictionary whose type field is unrecognized the
writer still assembles and writes the whole artifact: line 1 is followed
directly by the integral table and the spline section, with no header line
2/3, i.e. exactly the malformed SKF file the claim says is never
produced. -/
theorem makeSKF_unknown_type_counterexample :
    makeSKFErrorReported badTypeDictionary = true ∧
    makeSKFLines badTypeDictionary =
      [[SKFEntry.num 1, SKFEntry.num 2],
       List.replicate 20 (SKFEntry.num 1),
       List.replicate 20 (SKFEntry.num 1),
       [SKFEntry.str "Spline"],
       [SKFEntry.num 1, SKFEntry.num 5],
       [SKFEntry.num 0, SKFEntry.num 0, SKFEntry.num (-1)],
       [SKFEntry.num 3, SKFEntry.num 5, SKFEntry.num 0, SKFEntry.num 0,
        SKFEntry.num 0, SKFEntry.num 0, SKFEntry.num 0, SKFEntry.num 0]] := by
  refine ⟨by decide, ?_⟩
  simp [makeSKFLines, badTypeDictionary, skfRowVals, List.range_succ]

/-- C6 amended: an unrecognized type field is reported as a configuration
error (the printed diagnostic of the source), but generation is not aborted:
the SKF file is still written and consists of line 1, the integral table and
the spline section, with no element header line 2/3. -/
theorem makeSKF_unknown_type (pD : ParameterizationDictionary)
    (h : makeSKFErrorReported pD = true) :
    makeSKFLines pD =
      [[SKFEntry.num pD.gridDist, SKFEntry.num pD.nGridPoints]] ++
      (List.range pD.nGridPoints).map
        (fun i : ℕ => (skfRowVals pD (pD.gridDist * (i : ℚ))).map SKFEntry.num) ++
      [[SKFEntry.str "Spline"],
       [1, pD.domainTB.2].map SKFEntry.num,
       [0, 0, -1].map SKFEntry.num,
       ([pD.domainTB.1, pD.domainTB.2] ++ [0, 0, 0, 0, 0, 0]).map SKFEntry.num] := by
  have h1 : ¬ (pD.type = "homonuclear") := by
    intro hh
    rw [makeSKFErrorReported, if_pos hh] at h
    exact Bool.false_ne_true h
  have h2 : ¬ (pD.type = "heteronuclear") := by
    intro hh
    rw [makeSKFErrorReported, if_neg h1, if_pos hh] at h
    exact Bool.false_ne_true h
  simp [makeSKFLines, h1, h2]

/-- Instantiation of the C6 amended theorem on the unrecognized-type
dictionary. -/
theorem makeSKF_unknown_type_witness :
    makeSKFLines badTypeDictionary =
      [[SKFEntry.num badTypeDictionary.gridDist,
        SKFEntry.num badTypeDictionary.nGridPoints]] ++
      (List.range badTypeDictionary.nGridPoints).map
        (fun i =>
          (skfRowVals badTypeDictionary (badTypeDictionary.gridDist * i)).map
            SKFEntry.num) ++
      [[SKFEntry.str "Spline"],
       [1, badTypeDictionary.domainTB.2].map SKFEntry.num,
       [0, 0, -1].map SKFEntry.num,
       ([badTypeDictionary.domainTB.1, badTypeDictionary.domainTB.2] ++
          [0, 0, 0, 0, 0, 0]).map SKFEntry.num] :=
  makeSKF_unknown_type badTypeDictionary (by decide)

/-- Helper: the end-of-table bound computed by the reader when exactly one
line carries the Spline marker. -/
theorem skfAfterTableLineIndex_append (A B : List (List SKFEntry)) (s : List SKFEntry)
    (hs : s.any entryIsSpline = true)
    (hA : ∀ l ∈ A, l.any entryIsSpline = false)
    (hB : ∀ l ∈ B, l.any entryIsSpline = false) :
    skfAfterTableLineIndex (A ++ s :: B) = A.length := by
  unfold skfAfterTableLineIndex
  rw [List.reverse_append, List.reverse_cons, List.append_assoc]
  rw [findIdx_append_of_forall_false _ _ _
    (fun l hl => hB l (List.mem_reverse.mp hl))]
  rw [List.singleton_append, List.findIdx_cons, hs]
  simp [List.length_append, List.length_reverse]

/-- Helper: the reader's integral-table slice for a file of the shape
pre ++ table ++ Spline-section, given that the computed first index is the
length of the prefix and the Spline marker occurs exactly once. -/
theorem skfIntegralTable_of_shape (pre table post : List (List SKFEntry))
    (s : List SKFEntry) (len : ℕ)
    (hfirst : skfFirstTableLineIndex (pre ++ table ++ s :: post) len = pre.length)
    (hs : s.any entryIsSpline = true)
    (hpre : ∀ l ∈ pre, l.any entryIsSpline = false)
    (htab : ∀ l ∈ table, l.any entryIsSpline = false)
    (hpost : ∀ l ∈ post, l.any entryIsSpline = false) :
    skfIntegralTable (pre ++ table ++ s :: post) len =
      table.map (fun l => l.map entryVal) := by
  have hafter : skfAfterTableLineIndex (pre ++ table ++ s :: post) =
      pre.length + table.length := by
    have hAB : ∀ l ∈ pre ++ table, l.any entryIsSpline = false := by
      intro l hl
      rcases List.mem_append.mp hl with h | h
      exacts [hpre l h, htab l h]
    have := skfAfterTableLineIndex_append (pre ++ table) post s hs hAB hpost
    rw [List.append_assoc] at this
    rw [← List.append_assoc] at this
    simpa [List.length_append] using this
  simp only [skfIntegralTable]
  rw [hfirst, hafter, Nat.add_sub_cancel_left, List.append_assoc,
    List.drop_left' rfl, List.take_left' rfl]

/-- C5: writing an SKF file with makeSKF for a recognized type and re-parsing
it with the table-reader phase of plotSKF reproduces the integral table
exactly (the token-level model makes the text serialization lossless): the
detected format is the simple 20-column one, the parsed table has one row
per grid point holding the written values, and the first 10 columns are
recovered as the Hamiltonian half and the last 10 as the overlap half. -/
theorem makeSKF_plotSKF_roundtrip (pD : ParameterizationDictionary)
    (ht : pD.type = "homonuclear" ∨ pD.type = "heteronuclear")
    (hE : pD.EVec.length = 3) (hU : pD.UVec.length = 3)
    (hf : pD.fVec.length = 3) (hc : pD.cVec.length = 8) :
    skfDetectedLineLength (makeSKFLines pD) = 20 ∧
    skfIntegralTable (makeSKFLines pD) 20 =
      (List.range pD.nGridPoints).map
        (fun i : ℕ => skfRowVals pD (pD.gridDist * (i : ℚ))) ∧
    skfHTable (makeSKFLines pD) 20 =
      (List.range pD.nGridPoints).map
        (fun i : ℕ => (skfRowVals pD (pD.gridDist * (i : ℚ))).take 10) ∧
    skfSTable (makeSKFLines pD) 20 =
      (List.range pD.nGridPoints).map
        (fun i : ℕ => (skfRowVals pD (pD.gridDist * (i : ℚ))).drop 10) := by
  have hmain : skfDetectedLineLength (makeSKFLines pD) = 20 ∧
      skfIntegralTable (makeSKFLines pD) 20 =
        (List.range pD.nGridPoints).map
          (fun i : ℕ => skfRowVals pD (pD.gridDist * (i : ℚ))) := by
    rcases ht with h | h
    · have hshape : makeSKFLines pD =
          ([[SKFEntry.num pD.gridDist, SKFEntry.num pD.nGridPoints],
            (pD.EVec ++ [pD.SPE] ++ pD.UVec ++ pD.fVec).map SKFEntry.num,
            ([pD.mass] ++ pD.cVec ++ [pD.domainTB.2] ++ List.replicate 10 0).map SKFEntry.num] ++
           (List.range pD.nGridPoints).map
             (fun i : ℕ => (skfRowVals pD (pD.gridDist * (i : ℚ))).map SKFEntry.num)) ++
          ([SKFEntry.str "Spline"] ::
           [[1, pD.domainTB.2].map SKFEntry.num,
            [0, 0, -1].map SKFEntry.num,
            ([pD.domainTB.1, pD.domainTB.2] ++ [0, 0, 0, 0, 0, 0]).map SKFEntry.num]) := by
        simp [makeSKFLines, h]
      constructor
      · rw [hshape]
        simp [skfDetectedLineLength, entryHasAt]
      · have hfirst : skfFirstTableLineIndex (makeSKFLines pD) 20 =
            ([[SKFEntry.num pD.gridDist, SKFEntry.num pD.nGridPoints],
              (pD.EVec ++ [pD.SPE] ++ pD.UVec ++ pD.fVec).map SKFEntry.num,
              ([pD.mass] ++ pD.cVec ++ [pD.domainTB.2] ++
                List.replicate 10 0).map SKFEntry.num] : List (List SKFEntry)).length := by
          rw [hshape]
          simp [skfFirstTableLineIndex, List.findIdx_cons, List.length_append,
            List.length_map, hE, hU, hf, hc, List.length_replicate]
        have := skfIntegralTable_of_shape
          [[SKFEntry.num pD.gridDist, SKFEntry.num pD.nGridPoints],
           (pD.EVec ++ [pD.SPE] ++ pD.UVec ++ pD.fVec).map SKFEntry.num,
           ([pD.mass] ++ pD.cVec ++ [pD.domainTB.2] ++ List.replicate 10 0).map SKFEntry.num]
          ((List.range pD.nGridPoints).map
            (fun i : ℕ => (skfRowVals pD (pD.gridDist * (i : ℚ))).map SKFEntry.num))
          [[1, pD.domainTB.2].map SKFEntry.num,
           [0, 0, -1].map SKFEntry.num,
           ([pD.domainTB.1, pD.domainTB.2] ++ [0, 0, 0, 0, 0, 0]).map SKFEntry.num]
          [SKFEntry.str "Spline"] 20
          (by rw [← hshape]; exact hfirst)
          (by simp [entryIsSpline])
          (by
            intro l hl
            simp only [List.mem_cons, List.mem_singleton] at hl
            rcases hl with rfl | rfl | rfl | hl
            · simp [entryIsSpline]
            · simp [List.any_map, entryIsSpline, Function.comp]
            · simp [List.any_map, entryIsSpline, Function.comp]
            · simp at hl)
          (by
            intro l hl
            rcases List.mem_map.mp hl with ⟨i, _, rfl⟩
            simp [List.any_map, entryIsSpline, Function.comp])
          (by
            intro l hl
            simp only [List.mem_cons, List.mem_singleton] at hl
            rcases hl with rfl | rfl | rfl | hl
            · simp [List.any_map, entryIsSpline, Function.comp]
            · simp [List.any_map, entryIsSpline, Function.comp]
            · simp [List.any_map, entryIsSpline, Function.comp]
            · simp at hl)
        rw [← hshape] at this
        rw [this, List.map_map]
        apply List.map_congr_left
        intro i _
        simp [entryVal, List.map_map, Function.comp]
        rw [show entryVal ∘ SKFEntry.num = id from funext fun q => rfl, List.map_id]
    · have hshape : makeSKFLines pD =
          ([[SKFEntry.num pD.gridDist, SKFEntry.num pD.nGridPoints],
            (([12345] ++ pD.cVec ++ [pD.domainTB.2] ++ List.replicate 10 0).map SKFEntry.num)] ++
           (List.range pD.nGridPoints).map
             (fun i : ℕ => (skfRowVals pD (pD.gridDist * (i : ℚ))).map SKFEntry.num)) ++
          ([SKFEntry.str "Spline"] ::
           [[1, pD.domainTB.2].map SKFEntry.num,
            [0, 0, -1].map SKFEntry.num,
            ([pD.domainTB.1, pD.domainTB.2] ++ [0, 0, 0, 0, 0, 0]).map SKFEntry.num]) := by
        simp [makeSKFLines, h]
      constructor
      · rw [hshape]
        simp [skfDetectedLineLength, entryHasAt]
      · have hfirst : skfFirstTableLineIndex (makeSKFLines pD) 20 =
            ([[SKFEntry.num pD.gridDist, SKFEntry.num pD.nGridPoints],
              (([12345] ++ pD.cVec ++ [pD.domainTB.2] ++
                List.replicate 10 0).map SKFEntry.num)] : List (List SKFEntry)).length := by
          rw [hshape]
          simp [skfFirstTableLineIndex, List.findIdx_cons, List.length_append,
            List.length_map, hc, List.length_replicate]
        have := skfIntegralTable_of_shape
          [[SKFEntry.num pD.gridDist, SKFEntry.num pD.nGridPoints],
           (([12345] ++ pD.cVec ++ [pD.domainTB.2] ++ List.replicate 10 0).map SKFEntry.num)]
          ((List.range pD.nGridPoints).map
            (fun i : ℕ => (skfRowVals pD (pD.gridDist * (i : ℚ))).map SKFEntry.num))
          [[1, pD.domainTB.2].map SKFEntry.num,
           [0, 0, -1].map SKFEntry.num,
           ([pD.domainTB.1, pD.domainTB.2] ++ [0, 0, 0, 0, 0, 0]).map SKFEntry.num]
          [SKFEntry.str "Spline"] 20
          (by rw [← hshape]; exact hfirst)
          (by simp [entryIsSpline])
          (by
            intro l hl
            simp only [List.mem_cons, List.mem_singleton] at hl
            rcases hl with rfl | rfl | hl
            · simp [entryIsSpline]
            · simp [List.any_map, entryIsSpline, Function.comp]
            · simp at hl)
          (by
            intro l hl
            rcases List.mem_map.mp hl with ⟨i, _, rfl⟩
            simp [List.any_map, entryIsSpline, Function.comp])
          (by
            intro l hl
            simp only [List.mem_cons, List.mem_singleton] at hl
            rcases hl with rfl | rfl | rfl | hl
            · simp [List.any_map, entryIsSpline, Function.comp]
            · simp [List.any_map, entryIsSpline, Function.comp]
            · simp [List.any_map, entryIsSpline, Function.comp]
            · simp at hl)
        rw [← hshape] at this
        rw [this, List.map_map]
        apply List.map_congr_left
        intro i _
        simp [entryVal, List.map_map, Function.comp]
        rw [show entryVal ∘ SKFEntry.num = id from funext fun q => rfl, List.map_id]
  refine ⟨hmain.1, hmain.2, ?_, ?_⟩
  · rw [skfHTable, hmain.2, List.map_map]
    apply List.map_congr_left
    intro i _
    norm_num
  · rw [skfSTable, hmain.2, List.map_map]
    apply List.map_congr_left
    intro i _
    norm_num

/-- Instantiation of the C5 theorem on the Porezag dictionary. -/
theorem makeSKF_plotSKF_roundtrip_witness :
    skfDetectedLineLength (makeSKFLines PorezagDictionary) = 20 :=
  (makeSKF_plotSKF_roundtrip PorezagDictionary (Or.inl rfl) rfl rfl rfl rfl).1

/-- Helper: the first index whose token count matches, for a file whose
prefix has no matching line and whose next line matches. -/
theorem findIdx_len_shape (pre rest : List (List SKFEntry)) (h0 : List SKFEntry)
    (len : ℕ) (hpre : ∀ l ∈ pre, l.length ≠ len) (h0len : h0.length = len) :
    (pre ++ h0 :: rest).findIdx (fun l => l.length == len) = pre.length := by
  rw [findIdx_append_of_forall_false _ _ _
    (fun l hl => beq_eq_false_iff_ne.mpr (hpre l hl))]
  rw [List.findIdx_cons]
  have hh : (h0.length == len) = true := beq_iff_eq.mpr h0len
  rw [hh]
  simp

/-- C8 counterexample: in the simple format the reader does not start the
table at the first line with 20 tokens.  In this file the first 20-token
line is line 1 (a header line of constant 5s), yet the parsed table starts
at line 2 and contains only the row of 7s. -/
theorem plotSKF_table_start_counterexample :
    headerClashLines.findIdx (fun l => l.length == 20) = 1 ∧
    skfFirstTableLineIndex headerClashLines 20 = 2 ∧
    skfIntegralTable headerClashLines 20 = [List.replicate 20 (7 : ℚ)] := by
  refine ⟨by decide, by decide, ?_⟩
  simp [skfIntegralTable, skfFirstTableLineIndex, skfAfterTableLineIndex,
    headerClashLines, entryIsSpline, entryVal, List.findIdx_cons,
    List.map_replicate]

/-- C8 amended: the reader ends the integral table at the line carrying the
Spline marker and splits its columns into a first-half Hamiltonian table and
a second-half overlap table; in the extended (40-column) format the table
starts at the first line with 40 tokens, but in the simple (20-column)
format it starts one line after the first line with 20 tokens, because the
header line just before the table also has 20 entries. -/
theorem plotSKF_table_location :
    (∀ (pre table post : List (List SKFEntry)) (h20 s : List SKFEntry),
      (∀ l ∈ pre, l.length ≠ 20) → h20.length = 20 →
      s.any entryIsSpline = true →
      (∀ l ∈ pre, l.any entryIsSpline = false) →
      h20.any entryIsSpline = false →
      (∀ l ∈ table, l.any entryIsSpline = false) →
      (∀ l ∈ post, l.any entryIsSpline = false) →
      skfIntegralTable (pre ++ (h20 :: table) ++ (s :: post)) 20 =
        table.map (fun l => l.map entryVal)) ∧
    (∀ (pre tail post : List (List SKFEntry)) (t0 s : List SKFEntry),
      (∀ l ∈ pre, l.length ≠ 40) → t0.length = 40 →
      s.any entryIsSpline = true →
      (∀ l ∈ pre, l.any entryIsSpline = false) →
      (∀ l ∈ t0 :: tail, l.any entryIsSpline = false) →
      (∀ l ∈ post, l.any entryIsSpline = false) →
      skfIntegralTable (pre ++ (t0 :: tail) ++ (s :: post)) 40 =
        (t0 :: tail).map (fun l => l.map entryVal)) ∧
    (∀ (lines : List (List SKFEntry)) (len : ℕ),
      skfHTable lines len =
        (skfIntegralTable lines len).map (fun row => row.take (len / 2)) ∧
      skfSTable lines len =
        (skfIntegralTable lines len).map (fun row => row.drop (len / 2))) := by
  refine ⟨?_, ?_, fun lines len => ⟨rfl, rfl⟩⟩
  · intro pre table post h20 s hpre20 h20len hs hpreS h20S htabS hpostS
    have hsplit : pre ++ (h20 :: table) ++ (s :: post) =
        (pre ++ [h20]) ++ table ++ (s :: post) := by
      simp
    rw [hsplit]
    apply skfIntegralTable_of_shape (pre ++ [h20]) table post s 20 ?_ hs ?_ htabS hpostS
    · rw [← hsplit]
      have harr : pre ++ (h20 :: table) ++ (s :: post) =
          pre ++ (h20 :: (table ++ (s :: post))) := by
        simp
      rw [harr]
      unfold skfFirstTableLineIndex
      rw [findIdx_len_shape pre (table ++ (s :: post)) h20 20 hpre20 h20len]
      simp [List.length_append]
    · intro l hl
      rcases List.mem_append.mp hl with h | h
      · exact hpreS l h
      · rw [List.mem_singleton.mp h]
        exact h20S
  · intro pre tail post t0 s hpre40 ht0len hs hpreS htabS hpostS
    apply skfIntegralTable_of_shape pre (t0 :: tail) post s 40 ?_ hs hpreS htabS hpostS
    have harr : pre ++ (t0 :: tail) ++ (s :: post) =
        pre ++ (t0 :: (tail ++ (s :: post))) := by
      simp
    rw [harr]
    unfold skfFirstTableLineIndex
    rw [findIdx_len_shape pre (tail ++ (s :: post)) t0 40 hpre40 ht0len]
    simp

/-- Instantiation of the simple-format branch of the C8 amended theorem. -/
theorem plotSKF_table_location_witness :
    skfIntegralTable (([] : List (List SKFEntry)) ++
        (List.replicate 20 (SKFEntry.num 5) :: [[SKFEntry.num 7]]) ++
        ([SKFEntry.str "Spline"] :: [])) 20 =
      ([[SKFEntry.num 7]] : List (List SKFEntry)).map (fun l => l.map entryVal) :=
  plotSKF_table_location.1 [] [[SKFEntry.num 7]] []
    (List.replicate 20 (SKFEntry.num 5)) [SKFEntry.str "Spline"]
    (by simp) (by simp) (by decide) (by simp) (by decide)
    (by
      intro l hl
      rw [List.mem_singleton.mp hl]
      decide)
    (by simp)

/-- C9: the asterisk pre-parse pass expands, before column parsing, every
starred cell count*value into count repeated columns equal to value, so the
expanded line has exactly the token count and numeric content of the
explicitly written equivalent line, and a line without an asterisk is passed
through unchanged. -/
theorem expandLine_spec (l : List SKFCell) :
    expandLine l = l.flatMap (fun c => (expandCell c).map SKFCell.plain) ∧
    (expandLine l).length = (l.map (fun c => (expandCell c).length)).sum ∧
    (l.any cellHasStar = false → expandLine l = l) := by
  have hflat : ∀ m : List SKFCell, (∀ c ∈ m, cellHasStar c = false) →
      m.flatMap (fun c => (expandCell c).map SKFCell.plain) = m := by
    intro m hm
    induction m with
    | nil => rfl
    | cons c cs ih =>
        have hc := hm c (List.mem_cons_self c cs)
        have ihs := ih (fun d hd => hm d (List.mem_cons_of_mem c hd))
        cases c with
        | plain v =>
            rw [List.flatMap_cons, ihs]
            rfl
        | starred n v => simp [cellHasStar] at hc
  have h1 : expandLine l = l.flatMap (fun c => (expandCell c).map SKFCell.plain) := by
    unfold expandLine
    split
    · rfl
    · next hstar =>
        have hfalse : l.any cellHasStar = false := by
          revert hstar
          cases l.any cellHasStar <;> simp
        exact (hflat l (fun c hc =>
          Bool.eq_false_iff.mpr (List.any_eq_false.mp hfalse c hc))).symm
  have hlen : ∀ m : List SKFCell,
      (m.flatMap (fun c => (expandCell c).map SKFCell.plain)).length =
        (m.map (fun c => (expandCell c).length)).sum := by
    intro m
    induction m with
    | nil => rfl
    | cons c cs ih =>
        simp [List.flatMap_cons, List.length_append, List.length_map, ih]
  refine ⟨h1, ?_, ?_⟩
  · rw [h1]
    exact hlen l
  · intro h
    unfold expandLine
    rw [if_neg (by simp [h])]

/-- Instantiation of the C9 theorem: a starred cell expands to its repeated
values, and a star-free line is untouched. -/
theorem expandLine_spec_witness :
    expandLine [SKFCell.starred 3 2.5, SKFCell.plain 7] =
      [SKFCell.starred 3 2.5, SKFCell.plain 7].flatMap
        (fun c => (expandCell c).map SKFCell.plain) ∧
    expandLine [SKFCell.plain 1] = [SKFCell.plain 1] :=
  ⟨(expandLine_spec [SKFCell.starred 3 2.5, SKFCell.plain 7]).1,
   (expandLine_spec [SKFCell.plain 1]).2.2 (by decide)⟩

/-- Helper: lookup past six leading elements. -/
theorem getElem?_cons6 {α : Type} (a b c d e f : α) (l : List α) (i : ℕ) :
    (a :: b :: c :: d :: e :: f :: l)[6 + i]? = l[i]? := by
  rw [Nat.add_comm]
  simp [List.getElem?_cons_succ]

/-- C7: the LAMMPS pairwise writer emits a provenance comment line, a
description comment line, a blank line, the keyword line, an N-count line
with count nGridPoints and a blank line, then exactly nGridPoints data rows
at distances evenly spaced inclusive over the pair domain; the row with
1-based index i+1 holds that index, the distance times 0.529177, the energy
times 27.2114 and the force times 27.2114/0.529177, with (energy, force)
the pair function's value at the distance. -/
theorem makeLAMMPSPairwiseTable_spec (today : String)
    (pD : ParameterizationDictionary) :
    (makeLAMMPSPairwiseTable today pD).length = 6 + pD.nGridPoints ∧
    (makeLAMMPSPairwiseTable today pD).take 6 =
      [LammpsLine.provenance today pD.contributor,
       LammpsLine.description pD.pairDescription,
       LammpsLine.blank,
       LammpsLine.keyword pD.pairKeyword,
       LammpsLine.npoints pD.nGridPoints,
       LammpsLine.blank] ∧
    (∀ i, i < pD.nGridPoints →
      (makeLAMMPSPairwiseTable today pD)[6 + i]? =
        some (LammpsLine.data (i + 1)
          ((pD.domainPair.1 + (i : ℚ) *
              ((pD.domainPair.2 - pD.domainPair.1) / ((pD.nGridPoints : ℚ) - 1))) *
            0.529177)
          ((pD.pairFunction (pD.domainPair.1 + (i : ℚ) *
              ((pD.domainPair.2 - pD.domainPair.1) / ((pD.nGridPoints : ℚ) - 1)))).1 *
            27.2114)
          ((pD.pairFunction (pD.domainPair.1 + (i : ℚ) *
              ((pD.domainPair.2 - pD.domainPair.1) / ((pD.nGridPoints : ℚ) - 1)))).2 *
            (27.2114 / 0.529177)))) := by
  refine ⟨?_, ?_, ?_⟩
  · simp [makeLAMMPSPairwiseTable, List.length_append, List.length_map,
      List.length_range]
    omega
  · simp only [makeLAMMPSPairwiseTable]
    exact List.take_left' rfl
  · intro i hi
    simp only [makeLAMMPSPairwiseTable, List.cons_append, List.nil_append]
    rw [getElem?_cons6, List.getElem?_map, List.getElem?_range hi]
    rfl

/-- Instantiation of the C7 theorem on the Porezag dictionary: the header
block and the first data row. -/
theorem makeLAMMPSPairwiseTable_spec_witness :
    (makeLAMMPSPairwiseTable "2026-10-12" PorezagDictionary).take 6 =
      [LammpsLine.provenance "2026-10-12" PorezagDictionary.contributor,
       LammpsLine.description PorezagDictionary.pairDescription,
       LammpsLine.blank,
       LammpsLine.keyword PorezagDictionary.pairKeyword,
       LammpsLine.npoints PorezagDictionary.nGridPoints,
       LammpsLine.blank] ∧
    (makeLAMMPSPairwiseTable "2026-10-12" PorezagDictionary)[6 + 0]? =
      some (LammpsLine.data (0 + 1)
        ((PorezagDictionary.domainPair.1 + ((0 : ℕ) : ℚ) *
            ((PorezagDictionary.domainPair.2 - PorezagDictionary.domainPair.1) /
              ((PorezagDictionary.nGridPoints : ℚ) - 1))) * 0.529177)
        ((PorezagDictionary.pairFunction (PorezagDictionary.domainPair.1 + ((0 : ℕ) : ℚ) *
            ((PorezagDictionary.domainPair.2 - PorezagDictionary.domainPair.1) /
              ((PorezagDictionary.nGridPoints : ℚ) - 1)))).1 * 27.2114)
        ((PorezagDictionary.pairFunction (PorezagDictionary.domainPair.1 + ((0 : ℕ) : ℚ) *
            ((PorezagDictionary.domainPair.2 - PorezagDictionary.domainPair.1) /
              ((PorezagDictionary.nGridPoints : ℚ) - 1)))).2 * (27.2114 / 0.529177))) :=
  ⟨(makeLAMMPSPairwiseTable_spec "2026-10-12" PorezagDictionary).2.1,
   (makeLAMMPSPairwiseTable_spec "2026-10-12" PorezagDictionary).2.2 0 (by decide)⟩

/-- Helper: length of the group-control loop result. -/
theorem applyGroupControl_length (disp : List ℚ) :
    ∀ (bs : List Bool) (gs : List GroupDict),
      (applyGroupControl disp bs gs).length = gs.length
  | _, [] => by cases ‹List Bool› <;> rfl
  | [], _ :: _ => rfl
  | _ :: bs, _ :: gs => by
      simp [applyGroupControl, applyGroupControl_length disp bs gs]

/-- Helper: entry g of the group-control loop result. -/
theorem applyGroupControl_getElem (disp : List ℚ) :
    ∀ (bs : List Bool) (gs : List GroupDict) (g : ℕ) (group : GroupDict),
      bs.length = gs.length → gs[g]? = some group →
      (applyGroupControl disp bs gs)[g]? =
        some (if bs.getD g false then translateGroup disp group else group)
  | _, [], g, group, _, hg => by simp at hg
  | [], _ :: _, _, _, hlen, _ => by simp at hlen
  | b :: bs, g0 :: gs, 0, group, hlen, hg => by
      simp only [List.getElem?_cons_zero, Option.some_inj] at hg
      subst hg
      simp [applyGroupControl, List.getD]
  | b :: bs, g0 :: gs, g + 1, group, hlen, hg => by
      simp only [List.getElem?_cons_succ] at hg
      simp only [applyGroupControl, List.getElem?_cons_succ, List.getD_cons_succ]
      exact applyGroupControl_getElem disp bs gs g group (by simpa using hlen) hg

/-- Helper: the row update of translateCoordinates on a standard 8-column
row shifts exactly the four coordinate columns by the displacement. -/
theorem shiftRow_eq (disp row : List ℚ) (hd : disp.length = 4)
    (hr : row.length = 8) :
    shiftRow disp row =
      [row.getD 0 0, row.getD 1 0, row.getD 2 0, row.getD 3 0,
       row.getD 4 0 + disp.getD 0 0, row.getD 5 0 + disp.getD 1 0,
       row.getD 6 0 + disp.getD 2 0, row.getD 7 0 + disp.getD 3 0] := by
  rcases disp with _ | ⟨d0, disp⟩
  · simp at hd
  rcases disp with _ | ⟨d1, disp⟩
  · simp at hd
  rcases disp with _ | ⟨d2, disp⟩
  · simp at hd
  rcases disp with _ | ⟨d3, disp⟩
  · simp at hd
  rcases disp with _ | ⟨d4, disp⟩
  case cons => simp at hd
  rcases row with _ | ⟨a0, row⟩
  · simp at hr
  rcases row with _ | ⟨a1, row⟩
  · simp at hr
  rcases row with _ | ⟨a2, row⟩
  · simp at hr
  rcases row with _ | ⟨a3, row⟩
  · simp at hr
  rcases row with _ | ⟨a4, row⟩
  · simp at hr
  rcases row with _ | ⟨a5, row⟩
  · simp at hr
  rcases row with _ | ⟨a6, row⟩
  · simp at hr
  rcases row with _ | ⟨a7, row⟩
  · simp at hr
  rcases row with _ | ⟨a8, row⟩
  case cons => simp at hr
  rfl

/-- C10: translateCoordinates returns a new dictionary (the model of the
deep copy made by the source, so the input value is untouched) in which, for
every group selected by groupControl (all groups when it is None or empty),
only the coordinate columns 4-7 of that group's qArray rows are shifted, each
by exactly the displacement vector, while the meta columns 0-3, the other
group fields, the non-selected groups, and every other field of the
dictionary are unchanged. -/
theorem translateCoordinates_spec (sd : SimulationDictionary) (disp : List ℚ)
    (gc : Option (List Bool)) (hd : disp.length = 4)
    (hgc : ∀ l, gc = some l → l = [] ∨ l.length = sd.groupDictionaries.length) :
    (translateCoordinates sd disp gc).boxVectors = sd.boxVectors ∧
    (translateCoordinates sd disp gc).nAtoms = sd.nAtoms ∧
    (translateCoordinates sd disp gc).atomTypeList = sd.atomTypeList ∧
    (translateCoordinates sd disp gc).massList = sd.massList ∧
    (translateCoordinates sd disp gc).nAtomTypes = sd.nAtomTypes ∧
    (translateCoordinates sd disp gc).groupDictionaries.length =
      sd.groupDictionaries.length ∧
    (gc = none →
      effectiveGroupControl sd gc = List.replicate sd.groupDictionaries.length true) ∧
    (∀ g group, sd.groupDictionaries[g]? = some group →
      (translateCoordinates sd disp gc).groupDictionaries[g]? =
        some (if (effectiveGroupControl sd gc).getD g false
              then translateGroup disp group else group)) ∧
    (∀ group : GroupDict,
      (translateGroup disp group).atomTypeList = group.atomTypeList ∧
      (translateGroup disp group).massList = group.massList ∧
      (translateGroup disp group).qArray.length = group.qArray.length ∧
      (∀ (j : ℕ) (row : List ℚ), group.qArray[j]? = some row → row.length = 8 →
        (translateGroup disp group).qArray[j]? =
          some [row.getD 0 0, row.getD 1 0, row.getD 2 0, row.getD 3 0,
                row.getD 4 0 + disp.getD 0 0, row.getD 5 0 + disp.getD 1 0,
                row.getD 6 0 + disp.getD 2 0, row.getD 7 0 + disp.getD 3 0])) := by
  have hbs : (effectiveGroupControl sd gc).length = sd.groupDictionaries.length := by
    cases gc with
    | none => simp [effectiveGroupControl]
    | some l =>
        rcases hgc l rfl with rfl | hlen
        · simp [effectiveGroupControl]
        · by_cases he : l.isEmpty
          · simp [effectiveGroupControl, he]
          · simp [effectiveGroupControl, he]
            exact hlen
  refine ⟨rfl, rfl, rfl, rfl, rfl, ?_, ?_, ?_, ?_⟩
  · simp only [translateCoordinates]
    exact applyGroupControl_length disp _ _
  · intro h
    subst h
    rfl
  · intro g group hg
    simp only [translateCoordinates]
    exact applyGroupControl_getElem disp _ _ g group hbs hg
  · intro group
    refine ⟨rfl, rfl, by simp [translateGroup], ?_⟩
    intro j row hj hr
    have hlook : (translateGroup disp group).qArray[j]? = some (shiftRow disp row) := by
      simp [translateGroup, List.getElem?_map, hj]
    rw [hlook, shiftRow_eq disp row hd hr]

/-- Instantiation of the C10 theorem on a two-group simulation dictionary
translated by [1, 2, 3, 4] with the default group control. -/
theorem translateCoordinates_spec_witness :
    (translateCoordinates exampleSimDict [1, 2, 3, 4] none).boxVectors =
      exampleSimDict.boxVectors ∧
    effectiveGroupControl exampleSimDict none =
      List.replicate exampleSimDict.groupDictionaries.length true :=
  ⟨(translateCoordinates_spec exampleSimDict [1, 2, 3, 4] none rfl
      (fun l h => nomatch h)).1,
   (translateCoordinates_spec exampleSimDict [1, 2, 3, 4] none rfl
      (fun l h => nomatch h)).2.2.2.2.2.2.1 rfl⟩

/-- Helper: the first-kind Chebyshev polynomial in terms of the second kind,
stated as a two-step induction pair. -/
theorem chebT_succ_eq_chebU (R : Type) [CommRing R] (y : R) :
    ∀ n : ℕ, (chebT R (n + 1) y = chebU R (n + 1) y - y * chebU R n y) ∧
      (chebT R (n + 2) y = chebU R (n + 2) y - y * chebU R (n + 1) y)
  | 0 => by
      constructor
      · simp [chebT, chebU]
        ring
      · simp [chebT, chebU]
        ring
  | n + 1 => by
      obtain ⟨h1, h2⟩ := chebT_succ_eq_chebU R y n
      refine ⟨h2, ?_⟩
      rw [show n + 1 + 2 = n + 3 from rfl]
      rw [show chebT R (n + 3) y = 2 * y * chebT R (n + 2) y - chebT R (n + 1) y from by
        simp [chebT]]
      rw [h1, h2]
      rw [show chebU R (n + 3) y = 2 * y * chebU R (n + 2) y - chebU R (n + 1) y from by
        simp [chebU]]
      rw [show chebU R (n + 2) y = 2 * y * chebU R (n + 1) y - chebU R n y from by
        simp [chebU]]
      ring

/-- Helper: derivative of the first-kind Chebyshev polynomial, as a two-step
induction pair: the derivative of T n is n times U (n-1). -/
theorem hasDerivAt_chebT_pair (y : ℝ) :
    ∀ n : ℕ, HasDerivAt (fun x : ℝ => chebT ℝ n x) ((n : ℝ) * chebU ℝ (n - 1) y) y ∧
      HasDerivAt (fun x : ℝ => chebT ℝ (n + 1) x) (((n + 1 : ℕ) : ℝ) * chebU ℝ n y) y
  | 0 => by
      constructor
      · simpa [chebT] using hasDerivAt_const y (1 : ℝ)
      · simpa [chebT, chebU] using hasDerivAt_id y
  | n + 1 => by
      obtain ⟨ih1, ih2⟩ := hasDerivAt_chebT_pair y n
      refine ⟨ih2, ?_⟩
      have h2x : HasDerivAt (fun x : ℝ => 2 * x) (2 * 1) y :=
        (hasDerivAt_id y).const_mul 2
      have hfun : HasDerivAt
          (fun x : ℝ => 2 * x * chebT ℝ (n + 1) x - chebT ℝ n x)
          (2 * 1 * chebT ℝ (n + 1) y + 2 * y * (((n + 1 : ℕ) : ℝ) * chebU ℝ n y) -
            (n : ℝ) * chebU ℝ (n - 1) y) y :=
        (h2x.mul ih2).sub ih1
      have goal_eq : (((n + 1 + 1 : ℕ)) : ℝ) * chebU ℝ (n + 1) y =
          2 * 1 * chebT ℝ (n + 1) y + 2 * y * (((n + 1 : ℕ) : ℝ) * chebU ℝ n y) -
            (n : ℝ) * chebU ℝ (n - 1) y := by
        cases n with
        | zero => simp [chebT, chebU]; ring
        | succ m =>
            rw [show m + 1 + 1 = m + 2 from rfl]
            rw [show m + 1 - 1 = m from rfl]
            rw [(chebT_succ_eq_chebU ℝ y m).2]
            rw [show chebU ℝ (m + 2) y =
                2 * y * chebU ℝ (m + 1) y - chebU ℝ m y from by simp [chebU]]
            push_cast
            ring
      rw [show n + 1 + 1 = n + 2 from rfl] at goal_eq ⊢
      rw [goal_eq]
      exact hfun

/-- Helper: derivative of the truncated Chebyshev series. -/
theorem hasDerivAt_chebval (c : List ℝ) (y : ℝ) :
    HasDerivAt (fun x : ℝ => chebval c x)
      (∑ k in Finset.range c.length,
        c.getD k 0 * ((k : ℝ) * chebU ℝ (k - 1) y)) y := by
  have h : ∀ k ∈ Finset.range c.length,
      HasDerivAt (fun x : ℝ => c.getD k 0 * chebT ℝ k x)
        (c.getD k 0 * ((k : ℝ) * chebU ℝ (k - 1) y)) y :=
    fun k _ => ((hasDerivAt_chebT_pair y k).1).const_mul (c.getD k 0)
  exact HasDerivAt.sum h

/-- Helper: derivative of the affine domain map of the pair potential. -/
theorem hasDerivAt_pairDomainMap (r : ℝ) :
    HasDerivAt (fun s : ℝ => (2 * s - 4.1 - 1) / (4.1 - 1))
      (2 / ((4.1 : ℝ) - 1)) r := by
  have h : HasDerivAt (fun s : ℝ => 2 * s - 4.1 - 1) 2 r := by
    simpa using (((hasDerivAt_id r).const_mul (2 : ℝ)).sub_const (4.1 : ℝ)).sub_const 1
  simpa using h.div_const ((4.1 : ℝ) - 1)

/-- Helper: the rational-to-real cast commutes with the second-kind
Chebyshev polynomial, as a two-step induction pair. -/
theorem chebU_cast_pair (y : ℚ) :
    ∀ n : ℕ, ((chebU ℚ n y : ℚ) : ℝ) = chebU ℝ n (y : ℝ) ∧
      ((chebU ℚ (n + 1) y : ℚ) : ℝ) = chebU ℝ (n + 1) (y : ℝ)
  | 0 => by
      constructor
      · simp [chebU]
      · simp [chebU]
  | n + 1 => by
      obtain ⟨h1, h2⟩ := chebU_cast_pair y n
      refine ⟨h2, ?_⟩
      rw [show n + 1 + 1 = n + 2 from rfl]
      rw [show chebU ℚ (n + 2) y = 2 * y * chebU ℚ (n + 1) y - chebU ℚ n y from by
        simp [chebU]]
      rw [show chebU ℝ (n + 2) (y : ℝ) =
          2 * (y : ℝ) * chebU ℝ (n + 1) (y : ℝ) - chebU ℝ n (y : ℝ) from by simp [chebU]]
      push_cast
      rw [h1, h2]

/-- Helper: single-statement form of the cast lemma. -/
theorem chebU_cast (y : ℚ) (n : ℕ) :
    ((chebU ℚ n y : ℚ) : ℝ) = chebU ℝ n (y : ℝ) :=
  (chebU_cast_pair y n).1

/-- C2: inside [1, 4.1] the force returned by PorezagPair equals
-(sum over k = 1..9 of c_k·k·U_(k-1)(y))·(2/(4.1-1)) with y the mapped
distance and U the second-kind Chebyshev polynomials, and this value is
exactly the negative derivative with respect to r of the returned energy
expression chebval(y(r), c) - c_0/2 read as a real function of the
distance. -/
theorem porezagPair_force_spec (r : ℚ) (h1 : 1 ≤ r) (h2 : r ≤ 4.1) :
    (PorezagPair r).2 =
      -(∑ k in Finset.Icc 1 9, VC_rep.getD k 0 * (k : ℚ) *
          chebU ℚ (k - 1) ((2 * r - 4.1 - 1) / (4.1 - 1))) * (2 / (4.1 - 1)) ∧
    HasDerivAt
      (fun s : ℝ =>
        chebval (VC_rep.map (fun q : ℚ => (q : ℝ))) ((2 * s - 4.1 - 1) / (4.1 - 1)) -
          ((VC_rep.getD 0 0 : ℚ) : ℝ) / 2)
      (-(((PorezagPair r).2 : ℚ) : ℝ)) (r : ℝ) := by
  have hforce : (PorezagPair r).2 =
      ∑ m in Finset.Icc 1 10, -(VC_rep.getD (m - 1) 0) * ((m : ℚ) - 1) *
        chebUInt ℚ ((m : ℤ) - 2) ((2 * r - 4.1 - 1) / (4.1 - 1)) * (2 / (4.1 - 1)) := by
    simp only [PorezagPair]
    rw [if_pos ⟨h1, h2⟩]
  have ha : (PorezagPair r).2 =
      -(∑ k in Finset.Icc 1 9, VC_rep.getD k 0 * (k : ℚ) *
          chebU ℚ (k - 1) ((2 * r - 4.1 - 1) / (4.1 - 1))) * (2 / (4.1 - 1)) := by
    rw [hforce]
    rw [← Nat.Ico_succ_right, ← Nat.Ico_succ_right,
      Finset.sum_Ico_eq_sum_range, Finset.sum_Ico_eq_sum_range]
    norm_num [Finset.sum_range_succ, chebUInt, VC_rep, Int.toNat_ofNat]
    simp
    ring
  refine ⟨ha, ?_⟩
  have hmap := hasDerivAt_pairDomainMap (r : ℝ)
  have hval := hasDerivAt_chebval (VC_rep.map (fun q : ℚ => (q : ℝ)))
      ((2 * (r : ℝ) - 4.1 - 1) / (4.1 - 1))
  have hcomp := (hval.comp (r : ℝ) hmap).sub_const (((VC_rep.getD 0 0 : ℚ) : ℝ) / 2)
  have heq : (-(((PorezagPair r).2 : ℚ) : ℝ)) =
      (∑ k in Finset.range (VC_rep.map (fun q : ℚ => (q : ℝ))).length,
        (VC_rep.map (fun q : ℚ => (q : ℝ))).getD k 0 *
          ((k : ℝ) * chebU ℝ (k - 1) ((2 * (r : ℝ) - 4.1 - 1) / (4.1 - 1)))) *
        (2 / ((4.1 : ℝ) - 1)) := by
    rw [ha]
    push_cast [chebU_cast]
    rw [← Nat.Ico_succ_right, Finset.sum_Ico_eq_sum_range]
    norm_num [Finset.sum_range_succ, VC_rep]
    ring
  rw [heq]
  exact hcomp

/-- Instantiation of the force formula of the C2 theorem at r = 2. -/
theorem porezagPair_force_spec_witness :
    (PorezagPair 2).2 =
      -(∑ k in Finset.Icc 1 9, VC_rep.getD k 0 * (k : ℚ) *
          chebU ℚ (k - 1) ((2 * 2 - 4.1 - 1) / (4.1 - 1))) * (2 / (4.1 - 1)) :=
  (porezagPair_force_spec 2 (by norm_num) (by norm_num)).1

end LatteLammps
